import Mathlib

/-!
Verification development for the marketplace price-tracker pipeline
(`process_excel.py`).  The Python source is shallowly embedded: strings are
`List Char` (ASCII case folding, as all constants in the source are ASCII),
Python floats are modelled by `ℚ`, `None` by `Option`, and pandas rows by a
record type.  Each definition mirrors one Python function or code block and
is named after it where Lean allows.
-/

set_option maxRecDepth 10000

/-! ## Basic character and list helpers -/

/-- Whitespace test used by Python `str.split()` / `str.strip()` (ASCII model). -/
def isWsC (c : Char) : Bool :=
  c = ' ' || c = '\t' || c = '\n' || c = '\r'

/-- ASCII decimal digit, Python regex `\d` on the inputs in scope. -/
def isDigitC (c : Char) : Bool := '0' ≤ c && c ≤ '9'

/-- ASCII letter, Python regex `[A-Z]` under `re.IGNORECASE`. -/
def isLetterC (c : Char) : Bool := ('a' ≤ c && c ≤ 'z') || ('A' ≤ c && c ≤ 'Z')

/-- ASCII alphanumeric, Python regex `[A-Z0-9]` under `re.IGNORECASE`. -/
def isAlnumC (c : Char) : Bool := isLetterC c || isDigitC c

/-- Python regex word character `\w` (ASCII model), used for `\b`. -/
def isWordC (c : Char) : Bool := isAlnumC c || c = '_'

/-- Lowercase a character list, `str.lower()` on ASCII. -/
def lowerL (l : List Char) : List Char := l.map Char.toLower

/-- Uppercase a character list, `str.upper()` on ASCII. -/
def upperL (l : List Char) : List Char := l.map Char.toUpper

/-- Boolean prefix test on character lists. -/
def isPrefL : List Char → List Char → Bool
  | [], _ => true
  | _ :: _, [] => false
  | a :: as, b :: bs => a = b && isPrefL as bs

/-- Boolean substring containment, Python `needle in hay` on strings. -/
def containsL : List Char → List Char → Bool
  | n, [] => decide (n = [])
  | n, c :: rest => isPrefL n (c :: rest) || containsL n rest

/-- Substring containment for a string needle in a character-list haystack. -/
def csub (needle : String) (hay : List Char) : Bool := containsL needle.toList hay

/-- Fuelled scan for `removeAll`; every step consumes at least one
character, so fuel equal to the list length always suffices. -/
def removeAllF (pat : List Char) : Nat → List Char → List Char
  | 0, l => l
  | _ + 1, [] => []
  | fuel + 1, c :: rest =>
    if isPrefL pat (c :: rest) && !pat.isEmpty then
      removeAllF pat fuel ((c :: rest).drop pat.length)
    else
      c :: removeAllF pat fuel rest

/-- Replace every non-overlapping occurrence of `pat` (left to right) by
nothing, Python `str.replace(pat, '')` specialised to empty replacement. -/
def removeAll (pat : List Char) (l : List Char) : List Char :=
  removeAllF pat l.length l

/-- Drop leading whitespace, helper for `str.strip()`. -/
def dropWsLeft : List Char → List Char
  | [] => []
  | c :: rest => if isWsC c then dropWsLeft rest else c :: rest

/-- Python `str.strip()` on ASCII whitespace. -/
def stripWs (l : List Char) : List Char := (dropWsLeft (dropWsLeft l.reverse).reverse)

/-- Split on whitespace runs dropping empty fields, Python `str.split()`.
The accumulator holds the current in-progress word reversed. -/
def wordsAux : List Char → List Char → List (List Char)
  | cur, [] => if cur = [] then [] else [cur.reverse]
  | cur, c :: rest =>
    if isWsC c then
      if cur = [] then wordsAux [] rest else cur.reverse :: wordsAux [] rest
    else
      wordsAux (c :: cur) rest

/-- Words of a character list, Python `str.split()`. -/
def wordsOf (l : List Char) : List (List Char) := wordsAux [] l

/-! ## `extract_price` (process_excel.py lines 1035-1066)

Normalises a Turkish-format price string and parses it; the parsed value is
accepted only in the plausible band `[1, 1000000]`. -/

/-- Parse a nonempty all-digit character list as a natural number. -/
def parseDigits (l : List Char) : Option Nat :=
  if l = [] || !(l.all isDigitC) then none
  else some (l.foldl (fun acc c => acc * 10 + (c.toNat - '0'.toNat)) 0)

/-- Value of a dot-split digit string: one part is an integer, two parts
are integer and fractional digits, anything else (two or more dots, a lone
dot) is a `ValueError`. -/
def pyFloatParts : List (List Char) → Option ℚ
  | [d] => (parseDigits d).map (fun n => (n : ℚ))
  | [a, b] =>
    if a = [] && b = [] then none
    else if !(a.all isDigitC) || !(b.all isDigitC) then none
    else
      let ip : ℚ := ((parseDigits a).getD 0 : Nat)
      let fp : ℚ := ((parseDigits b).getD 0 : Nat)
      some (ip + fp / (10 ^ b.length : ℕ))
  | _ => none

/-- Python `float(s)` restricted to strings over digits and `'.'` (the only
alphabet reaching the call site after `re.sub(r'[^\d.]', '', ...)`): at most
one dot and at least one digit, otherwise `ValueError` (`none`). -/
def pyFloatOfDigits (l : List Char) : Option ℚ :=
  pyFloatParts (l.splitOn '.')

/-- Normalisation pipeline of `extract_price` applied to the raw character
list: strip currency markers, resolve Turkish separators (both `.` and `,`
present: dots are thousands separators; only `,`: comma is the decimal
point), then keep only digits and dots (`re.sub(r'[^\d.]', '', ...)`). -/
def normPriceL (l : List Char) : List Char :=
  let l1 := stripWs (removeAll "TRY".toList (removeAll "₺".toList (removeAll "TL".toList l)))
  let l2 :=
    if ('.' ∈ l1) && (',' ∈ l1) then
      (l1.filter (fun c => c ≠ '.')).map (fun c => if c = ',' then '.' else c)
    else if ',' ∈ l1 then
      l1.map (fun c => if c = ',' then '.' else c)
    else l1
  l2.filter (fun c => isDigitC c || c = '.')

/-- The `extract_price` function: empty input is rejected, then the
normalised text is parsed and the value accepted iff it lies in
`[1, 1000000]`. -/
def extract_price (s : String) : Option ℚ :=
  if s.toList = [] then none
  else
    (pyFloatOfDigits (normPriceL s.toList)).bind
      (fun p => if 1 ≤ p ∧ p ≤ 1000000 then some p else none)

/-! ## `is_price_valid` (process_excel.py lines 3481-3510) -/

/-- Price validator: accept unconditionally when the reference (`mm_price`)
is absent or non-positive; reject a missing or non-positive found price;
otherwise accept iff the found price lies within ±35% of the reference
(`mm_price * 0.65 ≤ found ≤ mm_price * 1.35`, bounds inclusive). -/
def is_price_valid (found_price : Option ℚ) (mm_price : Option ℚ) : Bool :=
  match mm_price with
  | none => true
  | some mm =>
    if mm ≤ 0 then true
    else
      match found_price with
      | none => false
      | some f =>
        if f ≤ 0 then false
        else decide (mm * (65 / 100) ≤ f ∧ f ≤ mm * (135 / 100))

/-! ## Result-store merge (`save_results_to_excel`, lines 3675-3763)

A store row holds one product name and four optional per-marketplace
prices; `pd.notna` on a price cell corresponds to `Option.isSome`. -/

/-- One row of `results.xlsx`. -/
structure ResultRow where
  name : String
  teknosa : Option ℚ
  hepsiburada : Option ℚ
  trendyol : Option ℚ
  amazon : Option ℚ
deriving DecidableEq, Repr

/-- Per-column merge: a non-null new value overwrites, a null new value
leaves the stored value untouched (`if pd.notna(new_value): ... = new_value`). -/
def mergeCol (old new : Option ℚ) : Option ℚ :=
  match new with
  | some v => some v
  | none => old

/-- Merge a new result row into a stored row for the same product. -/
def combineRow (old new : ResultRow) : ResultRow :=
  ⟨old.name, mergeCol old.teknosa new.teknosa, mergeCol old.hepsiburada new.hepsiburada,
    mergeCol old.trendyol new.trendyol, mergeCol old.amazon new.amazon⟩

/-- Update the first row with a matching product name (`existing_idx[0]`),
or append the new row when the product is not in the store (`pd.concat`). -/
def updFirst : List ResultRow → ResultRow → List ResultRow
  | [], n => [n]
  | r :: rest, n =>
    if r.name = n.name then combineRow r n :: rest else r :: updFirst rest n

/-- Merge one product's new per-marketplace results into the persisted
store; rows with an empty product name are skipped (`if not product_name`). -/
def mergeStore (store : List ResultRow) (n : ResultRow) : List ResultRow :=
  if n.name = "" then store else updFirst store n

/-- First row of the store matching a product name (pandas boolean-index
lookup takes `existing_idx[0]`, the first match). -/
def lookupRow : List ResultRow → String → Option ResultRow
  | [], _ => none
  | r :: rest, nm => if r.name = nm then some r else lookupRow rest nm

/-! ## `difflib.SequenceMatcher` (used by `calculate_similarity`)

Model of `SequenceMatcher(None, a, b).ratio()` at the matching-blocks level:
the earliest longest matching block is found, the blocks left and right of it
are matched recursively, and the ratio is `2*M/T` over the total match size
`M` and combined length `T` (`1.0` when `T = 0`).  The `autojunk` heuristic,
active only on sequences of length ≥ 200, is not modelled; every string fed
to the matcher by `calculate_similarity` (brand words and four-word series
prefixes of product names) is far below that bound. -/

/-- Length of the common prefix of two character lists. -/
def cpLen : List Char → List Char → Nat
  | a :: as, b :: bs => if a = b then cpLen as bs + 1 else 0
  | _, _ => 0

/-- All index pairs `(i, j)` with `i < n`, `j < m`, in lexicographic order
(the search order of `find_longest_match`). -/
def pairList (n m : Nat) : List (Nat × Nat) :=
  (List.range n).flatMap (fun i => (List.range m).map (fun j => (i, j)))

/-- One step of the longest-match scan: a strictly longer match found at
`(i, j)` replaces the current best block. -/
def flmStep (a b : List Char) (best : Nat × Nat × Nat) (ij : Nat × Nat) : Nat × Nat × Nat :=
  let k := cpLen (a.drop ij.1) (b.drop ij.2)
  if best.2.2 < k then (ij.1, ij.2, k) else best

/-- Earliest longest matching block `(i, j, k)` of two character lists
(`find_longest_match` without junk). -/
def flm (a b : List Char) : Nat × Nat × Nat :=
  (pairList a.length b.length).foldl (flmStep a b) (0, 0, 0)

/-- Total size of all matching blocks (`get_matching_blocks` recursion),
with explicit fuel; the initial fuel `a.length + b.length` always suffices
because each recursive call strictly shrinks the combined length. -/
def matchTotF : Nat → List Char → List Char → Nat
  | 0, _, _ => 0
  | fuel + 1, a, b =>
    let r := flm a b
    if r.2.2 = 0 then 0
    else
      matchTotF fuel (a.take r.1) (b.take r.2.1) + r.2.2 +
        matchTotF fuel (a.drop (r.1 + r.2.2)) (b.drop (r.2.1 + r.2.2))

/-- Total matched size of two character lists. -/
def matchTot (a b : List Char) : Nat := matchTotF (a.length + b.length) a b

/-- The `ratio()` of `SequenceMatcher(None, a, b)`: `2*M/T`, and `1` for two
empty sequences. -/
def ratioQ (a b : List Char) : ℚ :=
  if a.length + b.length = 0 then 1
  else 2 * (matchTot a b : ℚ) / ((a.length : ℚ) + (b.length : ℚ))

/-! ## Model-code regex (`model_pattern` in `calculate_similarity`)

Backtracking matcher for
`\b([A-Z0-9]+[.-][A-Z0-9]+[.-]?[A-Z0-9]*|[A-Z][0-9]+[A-Z]+[0-9]*|[A-Z]{2,}[0-9]+[A-Z0-9-]*)\b`
with `re.IGNORECASE`, as scanned by `re.findall`: alternatives are tried left
to right, quantifiers greedily with backtracking, matches are non-overlapping
and taken leftmost-first. -/

/-- Character at an index satisfies a class (out of range: `false`). -/
def classAt (f : Char → Bool) (t : List Char) (i : Nat) : Bool :=
  match t.get? i with
  | some c => f c
  | none => false

/-- Python regex word boundary `\b` before position `p`. -/
def wbAt (t : List Char) (p : Nat) : Bool :=
  (if p = 0 then false else classAt isWordC t (p - 1)) != classAt isWordC t p

/-- Dot-or-dash character class `[.-]`. -/
def isDotDashC (c : Char) : Bool := c = '.' || c = '-'

/-- Alphanumeric-or-dash character class `[A-Z0-9-]` (ignorecase). -/
def isAlnumDashC (c : Char) : Bool := isAlnumC c || c = '-'

/-- Length of the maximal run of class `f` starting at the head. -/
def runFromL (f : Char → Bool) : List Char → Nat
  | [] => 0
  | c :: cs => if f c then runFromL f cs + 1 else 0

/-- Length of the maximal run of class `f` at position `p` of `t`. -/
def runL (f : Char → Bool) (t : List Char) (p : Nat) : Nat :=
  runFromL f (t.drop p)

/-- Greedy backtracking over a quantifier: try repeat counts `r, r-1, ..., lo`
in that order, returning the first success of the continuation. -/
def tryDescFrom (f : Nat → Option Nat) (lo : Nat) : Nat → Option Nat
  | 0 => if lo = 0 then f 0 else none
  | r + 1 =>
    if r + 1 < lo then none
    else
      match f (r + 1) with
      | some q => some q
      | none => tryDescFrom f lo r

/-- First alternative `[A-Z0-9]+[.-][A-Z0-9]+[.-]?[A-Z0-9]*` followed by the
closing `\b`; returns the end position of the group on success. -/
def alt1End (t : List Char) (p : Nat) : Option Nat :=
  tryDescFrom (fun r1 =>
    let q1 := p + r1
    if classAt isDotDashC t q1 then
      let p2 := q1 + 1
      tryDescFrom (fun r2 =>
        let q2 := p2 + r2
        let dotPath : Option Nat :=
          if classAt isDotDashC t q2 then
            let p3 := q2 + 1
            tryDescFrom (fun r3 => if wbAt t (p3 + r3) then some (p3 + r3) else none)
              0 (runL isAlnumC t p3)
          else none
        match dotPath with
        | some q => some q
        | none =>
          tryDescFrom (fun r3 => if wbAt t (q2 + r3) then some (q2 + r3) else none)
            0 (runL isAlnumC t q2))
        1 (runL isAlnumC t p2)
    else none)
    1 (runL isAlnumC t p)

/-- Second alternative `[A-Z][0-9]+[A-Z]+[0-9]*` followed by the closing `\b`. -/
def alt2End (t : List Char) (p : Nat) : Option Nat :=
  if classAt isLetterC t p then
    let p1 := p + 1
    tryDescFrom (fun r1 =>
      let q1 := p1 + r1
      tryDescFrom (fun r2 =>
        let q2 := q1 + r2
        tryDescFrom (fun r3 => if wbAt t (q2 + r3) then some (q2 + r3) else none)
          0 (runL isDigitC t q2))
        1 (runL isLetterC t q1))
      1 (runL isDigitC t p1)
  else none

/-- Third alternative `[A-Z]{2,}[0-9]+[A-Z0-9-]*` followed by the closing `\b`. -/
def alt3End (t : List Char) (p : Nat) : Option Nat :=
  tryDescFrom (fun r1 =>
    let q1 := p + r1
    tryDescFrom (fun r2 =>
      let q2 := q1 + r2
      tryDescFrom (fun r3 => if wbAt t (q2 + r3) then some (q2 + r3) else none)
        0 (runL isAlnumDashC t q2))
      1 (runL isDigitC t q1))
    2 (runL isLetterC t p)

/-- Attempt the whole pattern `\b(alt1|alt2|alt3)\b` at position `p`. -/
def modelMatchAt (t : List Char) (p : Nat) : Option Nat :=
  if wbAt t p then
    match alt1End t p with
    | some q => some q
    | none =>
      match alt2End t p with
      | some q => some q
      | none => alt3End t p
  else none

/-- Leftmost non-overlapping scan of `re.findall`, with step fuel (every
step advances the position by at least one, so `t.length` suffices). -/
def scanModels (t : List Char) : Nat → Nat → List (List Char)
  | 0, _ => []
  | fuel + 1, p =>
    if t.length ≤ p then []
    else
      match modelMatchAt t p with
      | some q => ((t.drop p).take (q - p)) :: scanModels t fuel (max q (p + 1))
      | none => scanModels t fuel (p + 1)

/-- All raw matches of `model_pattern` in a text (`re.findall`). -/
def findModels (t : List Char) : List (List Char) :=
  scanModels t t.length 0

/-- Normalised model-token set: raw matches of length ≥ 3, uppercased with
punctuation stripped (`re.sub(r'[^A-Z0-9]', '', m.upper())`), as a duplicate
free list standing for the Python set. -/
def modelsOf (t : List Char) : List (List Char) :=
  (((findModels t).filter (fun m => 3 ≤ m.length)).map
    (fun m => (upperL m).filter isAlnumC)).dedup

/-! ## `calculate_similarity` (process_excel.py lines 1979-2119)

All sub-scores are over `ℚ`; Python sets of words are duplicate-free lists,
compared and intersected by membership. -/

/-- Stop-word set `filter_words` of technical/marketing filler terms. -/
def filterVocab : List (List Char) :=
  ["ips", "intel", "core", "amd", "ryzen", "nvidia", "geforce", "ram", "gb", "tb",
   "ssd", "hdd", "wifi", "bluetooth", "usb", "hdmi", "vga", "dvi", "displayport",
   "garantili", "ithalatçı", "ithalatci", "garanti", "yeni", "orijinal",
   "faturalı", "faturasız", "kutusunda", "kutusuz", "açık", "kapalı",
   "the", "and", "or", "for", "with", "ve", "ile", "veya", "için",
   "akıllı", "smart", "otomatik", "automatic", "yüksek", "high", "düşük", "low",
   "güçlü", "powerful", "hızlı", "fast", "yavaş", "slow"].map String.toList

/-- Fixed colour vocabulary `colors`. -/
def colorsVocab : List (List Char) :=
  ["beyaz", "white", "siyah", "black", "kırmızı", "red", "mavi", "blue",
   "yeşil", "green", "sarı", "yellow", "gri", "gray", "grey", "pembe", "pink",
   "mor", "purple", "turuncu", "orange", "kahverengi", "brown", "altın", "gold",
   "gümüş", "silver", "platin", "platinum"].map String.toList

/-- Set equality of two duplicate-free word lists (Python `set ==`). -/
def eqSetB (l1 l2 : List (List Char)) : Bool :=
  l1.all (fun x => decide (x ∈ l2)) && l2.all (fun x => decide (x ∈ l1))

/-- Whitespace-normalised lowercase words of a text (`text.lower()` then
`re.sub(r'\s+', ' ', ...)` then `.split()`). -/
def wordsAll (t : List Char) : List (List Char) := wordsOf (lowerL t)

/-- Important words of one text: stop words and single-character words
removed, as a set. -/
def impWords (t : List Char) : List (List Char) :=
  ((wordsAll t).filter (fun w => decide (w ∉ filterVocab) && decide (2 ≤ w.length))).dedup

/-- The pair of important-word sets, with the joint fallback: if either
side's filtered set is empty, both sides fall back to their full word sets. -/
def impPair (t1 t2 : List Char) : List (List Char) × List (List Char) :=
  let i1 := impWords t1
  let i2 := impWords t2
  if i1 = [] ∨ i2 = [] then ((wordsAll t1).dedup, (wordsAll t2).dedup) else (i1, i2)

/-- Brand sub-score: 1 on equal first tokens, else the fuzzy ratio when it
exceeds 0.8, else 0 (empty brands never reach the fuzzy comparison). -/
def brandQ (t1 t2 : List Char) : ℚ :=
  let b1 := (wordsAll t1).headD []
  let b2 := (wordsAll t2).headD []
  if b1 = b2 then 1
  else if b1 ≠ [] ∧ b2 ≠ [] then
    let r := ratioQ b1 b2
    if 4 / 5 < r then r else 0
  else 0

/-- Model tokens present on both sides (`models1.intersection(models2)`). -/
def commonModels (t1 t2 : List Char) : List (List Char) :=
  (modelsOf t1).filter (fun x => decide (x ∈ modelsOf t2))

/-- Model tokens present only on the first side (`models1 - models2`). -/
def missingModels (t1 t2 : List Char) : List (List Char) :=
  (modelsOf t1).filter (fun x => decide (x ∉ modelsOf t2))

/-- All ordered pairs of model tokens from the two sides. -/
def modelPairs (t1 t2 : List Char) : List (List Char × List Char) :=
  (modelsOf t1).flatMap (fun m1 => (modelsOf t2).map (fun m2 => (m1, m2)))

/-- Partial-match ratio of one model-token pair: the length overlap
`min/max` when one token contains the other, else 0. -/
def pairRatio2Q (m1 m2 : List Char) : ℚ :=
  if containsL m1 m2 || containsL m2 m1 then
    (min m1.length m2.length : ℚ) / (max m1.length m2.length : ℚ)
  else 0

/-- Whether some pair of model tokens is a partial match with ≥ 60% length
overlap (`partial_model_match`). -/
def hasPartialModel (t1 t2 : List Char) : Bool :=
  (modelPairs t1 t2).any (fun pr => decide ((3 / 5 : ℚ) ≤ pairRatio2Q pr.1 pr.2))

/-- Best partial-match overlap over qualifying pairs (`partial_model_score`). -/
def bestPartialQ (t1 t2 : List Char) : ℚ :=
  (modelPairs t1 t2).foldl
    (fun acc pr =>
      let r := pairRatio2Q pr.1 pr.2
      if (3 / 5 : ℚ) ≤ r then max acc r else acc) 0

/-- Model sub-score: full-set match scores 1, a nonempty intersection with
tokens missing scores `0.5 + 0.2·|common|`, a partial match scores
`0.3 + 0.3·overlap`, unmatched tokens on the first side score −0.2. -/
def modelScoreQ (t1 t2 : List Char) : ℚ :=
  if commonModels t1 t2 ≠ [] then
    if missingModels t1 t2 = [] then 1
    else 1 / 2 + ((commonModels t1 t2).length : ℚ) * (1 / 5)
  else if hasPartialModel t1 t2 then 3 / 10 + bestPartialQ t1 t2 * (3 / 10)
  else if missingModels t1 t2 ≠ [] then -(1 / 5)
  else 0

/-- Colour sub-score: equal colour sets score 1 (also when both sides name
no colour), overlapping nonempty colour sets score 0.5, otherwise 0. -/
def colorQ (t1 t2 : List Char) : ℚ :=
  let p := impPair t1 t2
  let c1 := p.1.filter (fun w => decide (w ∈ colorsVocab))
  let c2 := p.2.filter (fun w => decide (w ∈ colorsVocab))
  let base : ℚ :=
    if eqSetB c1 c2 then 1
    else if c1 ≠ [] ∧ c2 ≠ [] ∧ c1.filter (fun w => decide (w ∈ c2)) ≠ [] then 1 / 2
    else 0
  if c1 = [] ∧ c2 = [] then 1 else base

/-- Series sub-score: character ratio of the first four words of each side
joined by single spaces (`' '.join(words[:4])`). -/
def seriesQ (t1 t2 : List Char) : ℚ :=
  ratioQ (List.intercalate [' '] ((wordsAll t1).take 4))
    (List.intercalate [' '] ((wordsAll t2).take 4))

/-- Shared-important-token ratio `|common| / max(|set1|, |set2|)`, 0 when
both sides are empty. -/
def impRatioQ (t1 t2 : List Char) : ℚ :=
  let p := impPair t1 t2
  if p.1 = [] ∧ p.2 = [] then 0
  else ((p.1.filter (fun w => decide (w ∈ p.2))).length : ℚ) /
    (max p.1.length p.2.length : ℚ)

/-- Whether any model-code match (full or partial) is present; guards both
minimum-score floors. -/
def modelHitB (t1 t2 : List Char) : Bool :=
  !(commonModels t1 t2).isEmpty || hasPartialModel t1 t2

/-- Weighted sum of the five sub-scores (brand 0.30, model 0.40, colour
0.10, series 0.15, shared tokens 0.05). -/
def simRawQ (t1 t2 : List Char) : ℚ :=
  brandQ t1 t2 * (3 / 10) + modelScoreQ t1 t2 * (2 / 5) + colorQ t1 t2 * (1 / 10) +
    seriesQ t1 t2 * (3 / 20) + impRatioQ t1 t2 * (1 / 20)

/-- Weighted sum with the two minimum-score floors applied: ≥ 0.5 on any
model match, ≥ 0.7 when additionally the brand score exceeds 0.8. -/
def simFlooredQ (t1 t2 : List Char) : ℚ :=
  let s1 := if modelHitB t1 t2 then max (simRawQ t1 t2) (1 / 2) else simRawQ t1 t2
  if (decide ((4 / 5 : ℚ) < brandQ t1 t2) && modelHitB t1 t2) = true then max s1 (7 / 10) else s1

/-- Similarity on character lists: 0 when either text is empty, otherwise
the floored weighted sum clamped to `[0, 1]`. -/
def calcSimL (t1 t2 : List Char) : ℚ :=
  if t1 = [] ∨ t2 = [] then 0
  else max 0 (min 1 (simFlooredQ t1 t2))

/-- The `calculate_similarity` function on strings. -/
def calculate_similarity (s1 s2 : String) : ℚ :=
  calcSimL s1.toList s2.toList

/-! ## `is_sponsored_link` (process_excel.py lines 3388-3440)

One Google Custom Search result item; absent fields are the empty string
(`item.get(..., "")`). -/

/-- Fields of a search-result item consulted by the sponsorship test. -/
structure SearchItem where
  link : String
  title : String
  snippet : String
  htmlTitle : String
  htmlSnippet : String
  displayLink : String
deriving Repr

/-- Ad-serving domain and path markers checked against the lowercased URL. -/
def sponsoredDomains : List String :=
  ["googleadservices.com", "doubleclick.net", "googlesyndication.com",
   "/aclk", "adservice", "ads.google"]

/-- Sponsorship marker keywords checked by raw substring containment. -/
def sponsoredKeywords : List String :=
  ["sponsored", "advertisement", "ad", "reklam", "sponsorlu", "ilan", "promoted"]

/-- Concatenation of the four lowercased text fields with single spaces
(the f-string `f"{title} {snippet} {html_title} {html_snippet}"`). -/
def allTextOf (item : SearchItem) : List Char :=
  lowerL item.title.toList ++ [' '] ++ lowerL item.snippet.toList ++ [' '] ++
    lowerL item.htmlTitle.toList ++ [' '] ++ lowerL item.htmlSnippet.toList

/-- Sponsorship classifier: ad domain in the URL, else a marker keyword as a
raw substring of the concatenated lowercased text fields, else an ad marker
in the display link. -/
def is_sponsored_link (item : SearchItem) : Bool :=
  let link := lowerL item.link.toList
  if sponsoredDomains.any (fun d => csub d link) then true
  else if sponsoredKeywords.any (fun k => containsL k.toList (allTextOf item)) then true
  else
    let dl := lowerL item.displayLink.toList
    ["ad", "ads", "reklam"].any (fun k => csub k dl)

/-! ## Candidate classification in `search_product` (lines 2853-3046)

The per-item decision of the search loop: where the Python code appends to
`product_page_urls`, `marketplace_urls` or `category_page_urls` the decision
is `productPage`, `accepted` or `categoryPage`; where it `continue`s on a
sponsored item the decision is `dropped`; a non-matching, non-sponsored item
is `ignored`. -/

/-- Outcome of classifying one search item for a marketplace. -/
inductive LinkDecision where
  | productPage
  | accepted
  | categoryPage
  | dropped
  | ignored
deriving DecidableEq, Repr

/-- Amazon domains recognised by the Amazon branch. -/
def amazonDomains : List String :=
  ["amazon.com", "amazon.com.tr", "amazon.co.uk", "amazon.de", "amazon.fr",
   "amazon.it", "amazon.es"]

/-- Amazon product-page URL shapes. -/
def amzProductB (l : List Char) : Bool :=
  csub "/dp/" l || csub "/gp/product/" l || csub "/product/" l

/-- Amazon category/search-page URL shapes. -/
def amzCategoryB (l : List Char) : Bool :=
  csub "/s?" l || csub "/s/" l || csub "/gp/browse/" l || csub "/b/" l ||
    csub "/s?k=" l || csub "/s?rh=" l || csub "/s?ie=" l || csub "/s?node=" l

/-- Trendyol product-page URL shapes. -/
def tyProductB (l : List Char) : Bool := csub "/p/" l || csub "/brand/" l

/-- Trendyol category/search-page URL shapes. -/
def tyCategoryB (l : List Char) : Bool :=
  csub "/sr" l || csub "/kategori" l || csub "/arama" l

/-- Hepsiburada product-page URL shapes, including the long-slug heuristic
(at least five hyphens and no pagination parameter). -/
def hbProductB (l : List Char) : Bool :=
  csub "/p/" l || csub "/urun/" l || csub "-pm-" l || csub "-p-" l ||
    containsL "-HB".toList (upperL l) ||
    (decide (5 ≤ l.count '-') && !(csub "?sayfa=" l))

/-- Hepsiburada category/listing URL shapes. -/
def hbCategoryB (l : List Char) : Bool :=
  csub "/liste" l || csub "/kategori" l || csub "/arama" l || csub "-x-s" l ||
    csub "-xc-" l || csub "/c-" l || csub "?sayfa=" l

/-- Teknosa product-page URL shape. -/
def tkProductB (l : List Char) : Bool := csub "-p-" l

/-- Teknosa category/store URL shapes. -/
def tkCategoryB (l : List Char) : Bool :=
  csub "-bc-" l || csub "/magaza/" l || csub "/kategori/" l

/-- Per-item decision of the `search_product` classification loop, given the
lowercased marketplace name, the (already redirect-unwrapped) link and the
item's sponsorship flag. -/
def classifyCandidate (marketplaceLower : String) (link : String) (sponsored : Bool) :
    LinkDecision :=
  let l := lowerL link.toList
  if marketplaceLower = "amazon" then
    if amazonDomains.any (fun d => csub d l) then
      if sponsored && amzProductB l then .productPage
      else if sponsored && amzCategoryB l then .dropped
      else if sponsored then .dropped
      else if amzProductB l then .productPage
      else if amzCategoryB l then .categoryPage
      else .accepted
    else if sponsored then .dropped
    else .ignored
  else if marketplaceLower = "trendyol" && csub "trendyol.com" l then
    if sponsored && tyProductB l then .accepted
    else if sponsored && tyCategoryB l then .dropped
    else if sponsored then .dropped
    else if tyCategoryB l then .dropped
    else .accepted
  else if marketplaceLower = "hepsiburada" && csub "hepsiburada.com" l then
    if sponsored && hbProductB l then .accepted
    else if sponsored && hbCategoryB l then .dropped
    else if sponsored then
      if !(hbCategoryB l) && decide (3 ≤ l.count '-') then .accepted else .dropped
    else if hbCategoryB l then .dropped
    else .accepted
  else if marketplaceLower = "teknosa" && csub "teknosa.com" l then
    if sponsored && tkProductB l then .productPage
    else if sponsored && tkCategoryB l then .dropped
    else if sponsored then .dropped
    else if tkProductB l then .productPage
    else if tkCategoryB l then .categoryPage
    else .accepted
  else if sponsored then .dropped
  else .ignored

/-! ## Retry loop of `extract_price_from_teknosa` (lines 1069-1490)

The network-dependent body of one attempt is abstracted as its classified
outcome; the loop control (`for attempt in range(max_retries + 1)` with
`continue` on every non-success outcome while attempts remain) is modelled
exactly.  The Trendyol extractor (lines 146-443) has the same policy. -/

/-- Classified outcome of a single fetch-and-extract attempt. -/
inductive AttemptOutcome where
  | found (p : ℚ)
  | notFound
  | timeout
  | botBlocked
  | httpStatus (code : Nat)
  | transportError
deriving DecidableEq, Repr

/-- Typed terminal error of the extractor. -/
inductive ExtractErr where
  | priceNotFound
  | timeoutAfterRetries
  | botProtection
  | httpFailure (code : Nat)
  | transportFailure
deriving DecidableEq, Repr

/-- Terminal result of one extractor call. -/
inductive ExtractResult where
  | success (p : ℚ)
  | failure (e : ExtractErr)
deriving DecidableEq, Repr

/-- Terminal error reported for an attempt outcome on the final attempt. -/
def errOf : AttemptOutcome → ExtractErr
  | .found _ => .priceNotFound
  | .notFound => .priceNotFound
  | .timeout => .timeoutAfterRetries
  | .botBlocked => .botProtection
  | .httpStatus c => .httpFailure c
  | .transportError => .transportFailure

/-- The retry loop from attempt `attempt` with `fuel` further attempts
allowed after the current one: a found price returns immediately; every
other outcome retries while fuel remains and reports its typed error on the
final attempt.  The pair also returns the number of attempts performed. -/
def runRetryFrom (o : Nat → AttemptOutcome) : Nat → Nat → ExtractResult × Nat
  | 0, attempt =>
    match o attempt with
    | .found p => (.success p, attempt + 1)
    | out => (.failure (errOf out), attempt + 1)
  | fuel + 1, attempt =>
    match o attempt with
    | .found p => (.success p, attempt + 1)
    | _ => runRetryFrom o fuel (attempt + 1)

/-- One call of the Teknosa price extractor with retry budget `maxRetries`
(the loop runs `maxRetries + 1` attempts at most), over the stream `o` of
per-attempt outcomes. -/
def runExtractor (o : Nat → AttemptOutcome) (maxRetries : Nat) : ExtractResult × Nat :=
  runRetryFrom o maxRetries 0

/-! ## Shared helper lemmas -/

/-- A prefix of a list is a prefix of any right extension. -/
theorem isPrefL_append (n : List Char) : ∀ a b : List Char,
    isPrefL n a = true → isPrefL n (a ++ b) = true := by
  induction n with
  | nil => intro a b _; simp [isPrefL]
  | cons c cs ih =>
    intro a b h
    cases a with
    | nil => simp [isPrefL] at h
    | cons d ds =>
      simp only [isPrefL, Bool.and_eq_true, decide_eq_true_eq] at h
      simp only [List.cons_append, isPrefL, Bool.and_eq_true, decide_eq_true_eq]
      exact ⟨h.1, ih ds b h.2⟩

/-- The empty needle is contained in every haystack. -/
theorem containsL_nil (h : List Char) : containsL [] h = true := by
  induction h with
  | nil => rfl
  | cons c rest ih => simp [containsL, isPrefL]

/-- Containment is preserved by extending the haystack on the right. -/
theorem containsL_append_left (n : List Char) : ∀ a b : List Char,
    containsL n a = true → containsL n (a ++ b) = true := by
  intro a
  induction a with
  | nil =>
    intro b h
    simp only [containsL, decide_eq_true_eq] at h
    subst h
    simpa using containsL_nil b
  | cons c cs ih =>
    intro b h
    simp only [containsL, Bool.or_eq_true] at h
    rcases h with h | h
    · simp only [List.cons_append, containsL, Bool.or_eq_true]
      exact Or.inl (isPrefL_append n (c :: cs) b h)
    · simp only [List.cons_append, containsL, Bool.or_eq_true]
      exact Or.inr (ih b h)

/-- Containment is preserved by extending the haystack on the left. -/
theorem containsL_append_right (n : List Char) : ∀ a b : List Char,
    containsL n b = true → containsL n (a ++ b) = true := by
  intro a
  induction a with
  | nil => intro b h; simpa using h
  | cons c cs ih =>
    intro b h
    simp only [List.cons_append, containsL, Bool.or_eq_true]
    exact Or.inr (ih b h)

/-- Updating the first matching row is visible to a first-match lookup. -/
theorem lookupRow_updFirst (n old : ResultRow) : ∀ store : List ResultRow,
    lookupRow store n.name = some old →
    lookupRow (updFirst store n) n.name = some (combineRow old n) := by
  intro store
  induction store with
  | nil => intro h; simp [lookupRow] at h
  | cons r rest ih =>
    intro h
    by_cases hr : r.name = n.name
    · simp only [lookupRow, if_pos hr] at h
      injection h with h
      subst h
      simp only [updFirst, if_pos hr, lookupRow]
      rw [if_pos]
      exact hr
    · simp only [lookupRow, if_neg hr] at h
      simp only [updFirst, if_neg hr, lookupRow, if_neg hr]
      exact ih h

/-- The retry loop on an all-`notFound` outcome stream runs every remaining
attempt and terminates with the price-not-found error. -/
theorem runRetryFrom_notFound (o : Nat → AttemptOutcome) (h : ∀ i, o i = .notFound) :
    ∀ fuel attempt, runRetryFrom o fuel attempt = (.failure .priceNotFound, attempt + fuel + 1) := by
  intro fuel
  induction fuel with
  | zero => intro attempt; simp [runRetryFrom, h attempt, errOf]
  | succ fuel ih =>
    intro attempt
    simp only [runRetryFrom, h attempt]
    rw [ih (attempt + 1)]
    congr 1
    omega

/-- Evaluation of `pyFloatOfDigits` on a string with no dot. -/
theorem pyFloat_one_part (l d : List Char) (n : ℕ)
    (hsplit : l.splitOn '.' = [d]) (hd : parseDigits d = some n) :
    pyFloatOfDigits l = some (n : ℚ) := by
  unfold pyFloatOfDigits
  rw [hsplit]
  simp only [pyFloatParts, hd]
  simp

/-- Evaluation of `pyFloatOfDigits` on a string with one dot and digits on
both sides. -/
theorem pyFloat_two_parts (l a b : List Char) (n m : ℕ)
    (hsplit : l.splitOn '.' = [a, b])
    (ha : parseDigits a = some n) (hb : parseDigits b = some m) :
    pyFloatOfDigits l = some ((n : ℚ) + (m : ℚ) / ((10 : ℕ) ^ b.length : ℕ)) := by
  have hane : ¬(a = [] || !(a.all isDigitC)) = true := by
    intro hc
    rw [parseDigits, if_pos hc] at ha
    exact Option.noConfusion ha
  have hbne : ¬(b = [] || !(b.all isDigitC)) = true := by
    intro hc
    rw [parseDigits, if_pos hc] at hb
    exact Option.noConfusion hb
  simp only [Bool.or_eq_true, decide_eq_true_eq, Bool.not_eq_true', not_or,
    Bool.not_eq_false] at hane hbne
  unfold pyFloatOfDigits
  rw [hsplit]
  simp only [pyFloatParts, ha, hb]
  rw [if_neg (by simp [hane.1]), if_neg (by simp [hane.2, hbne.2])]
  simp

/-! ## C1: price validator tolerance band -/

/-- C1 (amended): the validator accepts any price when the reference is
absent, and also when a non-positive reference is supplied; for a positive
reference it rejects a non-positive found price and otherwise accepts
exactly the inclusive band `0.65·r ≤ f ≤ 1.35·r`. -/
theorem is_price_valid_spec (f r : ℚ) :
    is_price_valid (some f) none = true
    ∧ (r ≤ 0 → is_price_valid (some f) (some r) = true)
    ∧ (0 < r →
        ((f ≤ 0 → is_price_valid (some f) (some r) = false)
          ∧ (is_price_valid (some f) (some r) = true ↔
              r * (65 / 100) ≤ f ∧ f ≤ r * (135 / 100)))) := by
  refine ⟨rfl, ?_, ?_⟩
  · intro hr
    simp [is_price_valid, hr]
  · intro hr
    have hr' : ¬ r ≤ 0 := not_le.mpr hr
    constructor
    · intro hf
      simp [is_price_valid, hr', hf]
    · by_cases hf : f ≤ 0
      · simp only [is_price_valid, if_neg hr', if_pos hf]
        constructor
        · intro h; exact absurd h (by simp)
        · intro h
          exfalso
          have hlb : 0 < r * (65 / 100) := by positivity
          linarith [h.1]
      · simp [is_price_valid, hr', hf]

/-- Witness for C1 at the boundary input of the spec: a found price of 650
against a reference of 1000 is accepted. -/
theorem is_price_valid_spec_witness : is_price_valid (some 650) (some 1000) = true :=
  ((is_price_valid_spec 650 1000).2.2 (by norm_num)).2.mpr (by norm_num)

/-- Counterexample to C1 as frozen: with a supplied reference of 0 and a
positive found price the code accepts, although `0.65·0 ≤ 100 ≤ 1.35·0`
fails (the claim requires rejection whenever the reference is supplied and
the band fails). -/
theorem is_price_valid_cx :
    is_price_valid (some 100) (some 0) = true
    ∧ ¬((0 : ℚ) * (65 / 100) ≤ 100 ∧ (100 : ℚ) ≤ 0 * (135 / 100)) := by
  constructor
  · rfl
  · intro h
    norm_num at h

/-! ## C3 and C10: Turkish price-string normalisation -/

/-- C3: the normaliser resolves `.` as thousands separator and `,` as
decimal separator on the spec's three formats. -/
theorem extract_price_turkish :
    extract_price "12.499,25" = some (49997 / 4)
    ∧ extract_price "12499,25" = some (49997 / 4)
    ∧ extract_price "12499" = some 12499 := by
  refine ⟨?_, ?_, ?_⟩
  · rw [extract_price, if_neg (by decide),
      show normPriceL "12.499,25".toList = "12499.25".toList from by decide,
      pyFloat_two_parts "12499.25".toList "12499".toList "25".toList 12499 25
        (by decide) (by decide) (by decide)]
    norm_num
  · rw [extract_price, if_neg (by decide),
      show normPriceL "12499,25".toList = "12499.25".toList from by decide,
      pyFloat_two_parts "12499.25".toList "12499".toList "25".toList 12499 25
        (by decide) (by decide) (by decide)]
    norm_num
  · rw [extract_price, if_neg (by decide),
      show normPriceL "12499".toList = "12499".toList from by decide,
      pyFloat_one_part "12499".toList "12499".toList 12499 (by decide) (by decide)]
    norm_num

/-- C10: a dot with no comma is kept as a decimal separator, so
`"12.499"` parses as `12.499`, not as `12499`. -/
theorem extract_price_dot_decimal :
    extract_price "12.499" = some (12499 / 1000)
    ∧ extract_price "12.499" ≠ some 12499 := by
  have h : extract_price "12.499" = some (12499 / 1000) := by
    rw [extract_price, if_neg (by decide),
      show normPriceL "12.499".toList = "12.499".toList from by decide,
      pyFloat_two_parts "12.499".toList "12".toList "499".toList 12 499
        (by decide) (by decide) (by decide)]
    norm_num
  refine ⟨h, ?_⟩
  rw [h]
  intro hc
  injection hc with hc
  norm_num at hc

/-! ## C4: plausible price band -/

/-- C4: a value parsed from the normalised text is returned as a found
price exactly when it lies in the inclusive band `[1, 1000000]`; out-of-band
values yield no price at all. -/
theorem extract_price_band (s : String) (p : ℚ)
    (h : pyFloatOfDigits (normPriceL s.toList) = some p) :
    (1 ≤ p ∧ p ≤ 1000000 → extract_price s = some p)
    ∧ (¬(1 ≤ p ∧ p ≤ 1000000) → extract_price s = none) := by
  have hne : s.toList ≠ [] := by
    intro he
    rw [he] at h
    rw [show pyFloatOfDigits (normPriceL []) = none from rfl] at h
    exact Option.noConfusion h
  constructor
  · intro hb
    rw [extract_price, if_neg hne, h]
    show (if 1 ≤ p ∧ p ≤ 1000000 then some p else none) = some p
    rw [if_pos hb]
  · intro hb
    rw [extract_price, if_neg hne, h]
    show (if 1 ≤ p ∧ p ≤ 1000000 then some p else none) = none
    rw [if_neg hb]

/-- Witness for C4 at the lower boundary: the string `"1"` parses to 1,
which is accepted. -/
theorem extract_price_band_witness :
    pyFloatOfDigits (normPriceL "1".toList) = some 1
    ∧ (1 : ℚ) ≤ 1 ∧ (1 : ℚ) ≤ 1000000
    ∧ extract_price "1" = some 1 := by
  have h1 : pyFloatOfDigits (normPriceL "1".toList) = some 1 := by
    rw [show normPriceL "1".toList = "1".toList from by decide,
      pyFloat_one_part "1".toList "1".toList 1 (by decide) (by decide)]
    norm_num
  exact ⟨h1, by norm_num, by norm_num, (extract_price_band "1" 1 h1).1 (by norm_num)⟩

/-! ## C8: retry policy on a fetch that succeeds without a price -/

/-- C8 (amended): within one extractor call a fetch that succeeds but finds
no valid price is retried exactly like the other failure outcomes: with
retry budget `m`, an all-`NotFound` run performs all `m + 1` attempts and
only then terminates with the price-not-found error. -/
theorem extractor_retries_notFound (o : Nat → AttemptOutcome) (m : Nat)
    (h : ∀ i, o i = .notFound) :
    runExtractor o m = (.failure .priceNotFound, m + 1) := by
  unfold runExtractor
  rw [runRetryFrom_notFound o h m 0]
  congr 1
  omega

/-- Witness for C8 with the Teknosa default budget of 3 retries. -/
theorem extractor_retries_notFound_witness :
    runExtractor (fun _ => AttemptOutcome.notFound) 3 =
      (.failure .priceNotFound, 4) :=
  extractor_retries_notFound (fun _ => AttemptOutcome.notFound) 3 (fun _ => rfl)

/-- Counterexample to C8 as frozen: a first attempt that ends `NotFound` is
followed by further attempts (four attempts happen in total with the default
budget), so `NotFound` is not terminal for the URL. -/
theorem extractor_notFound_cx :
    (runExtractor (fun _ => AttemptOutcome.notFound) 3).2 = 4
    ∧ (runExtractor (fun _ => AttemptOutcome.notFound) 3).2 ≠ 1 := by
  refine ⟨?_, ?_⟩ <;> decide

/-! ## C9: sponsorship marker是 substring test -/

/-- C9: the marker keywords are tested by raw substring containment of the
concatenated lowercased text fields, so any item whose lowercased title or
snippet contains the two-letter sequence `ad` anywhere (for example inside
`iPad`) is classified as sponsored. -/
theorem sponsored_ad_substring (item : SearchItem)
    (h : containsL "ad".toList (lowerL item.title.toList) = true
       ∨ containsL "ad".toList (lowerL item.snippet.toList) = true) :
    is_sponsored_link item = true := by
  have had : containsL "ad".toList (allTextOf item) = true := by
    unfold allTextOf
    rcases h with h | h
    · exact containsL_append_left _ _ _ (containsL_append_left _ _ _
        (containsL_append_left _ _ _ (containsL_append_left _ _ _
          (containsL_append_left _ _ _ (containsL_append_left _ _ _ h)))))
    · have h2 : containsL "ad".toList
          (lowerL item.title.toList ++ [' '] ++ lowerL item.snippet.toList) = true :=
        containsL_append_right _ _ _ h
      exact containsL_append_left _ _ _ (containsL_append_left _ _ _
        (containsL_append_left _ _ _ (containsL_append_left _ _ _ h2)))
  have hany : (sponsoredKeywords.any fun k => containsL k.toList (allTextOf item)) = true := by
    rw [List.any_eq_true]
    exact ⟨"ad", by decide, had⟩
  simp only [is_sponsored_link]
  by_cases h1 : (sponsoredDomains.any fun d => csub d (lowerL item.link.toList)) = true
  · rw [if_pos h1]
  · rw [if_neg h1, if_pos hany]

/-- Witness for C9: a plain organic result for an iPad is flagged as
sponsored because `ipad` contains `ad`. -/
theorem sponsored_ad_substring_witness :
    is_sponsored_link ⟨"https://www.apple.com/tr/ipad", "Apple iPad Pro", "", "", "", ""⟩ =
      true :=
  sponsored_ad_substring _ (Or.inl (by decide))

/-! ## C2: merge never overwrites a stored price with null -/

/-- C2: merging one product's new per-marketplace results into the store
never replaces a stored price by null: for every marketplace column, a null
new value leaves the stored value untouched and a non-null new value
overwrites it. -/
theorem merge_never_nulls (store : List ResultRow) (n old : ResultRow)
    (hn : n.name ≠ "") (h : lookupRow store n.name = some old) :
    ∃ r, lookupRow (mergeStore store n) n.name = some r
      ∧ (n.teknosa = none → r.teknosa = old.teknosa)
      ∧ (∀ v, n.teknosa = some v → r.teknosa = some v)
      ∧ (n.hepsiburada = none → r.hepsiburada = old.hepsiburada)
      ∧ (∀ v, n.hepsiburada = some v → r.hepsiburada = some v)
      ∧ (n.trendyol = none → r.trendyol = old.trendyol)
      ∧ (∀ v, n.trendyol = some v → r.trendyol = some v)
      ∧ (n.amazon = none → r.amazon = old.amazon)
      ∧ (∀ v, n.amazon = some v → r.amazon = some v) := by
  refine ⟨combineRow old n, ?_, ?_, ?_, ?_, ?_, ?_, ?_, ?_, ?_⟩
  · rw [mergeStore, if_neg hn]
    exact lookupRow_updFirst n old store h
  · intro hv; simp [combineRow, mergeCol, hv]
  · intro v hv; simp [combineRow, mergeCol, hv]
  · intro hv; simp [combineRow, mergeCol, hv]
  · intro v hv; simp [combineRow, mergeCol, hv]
  · intro hv; simp [combineRow, mergeCol, hv]
  · intro v hv; simp [combineRow, mergeCol, hv]
  · intro hv; simp [combineRow, mergeCol, hv]
  · intro v hv; simp [combineRow, mergeCol, hv]

/-- Witness for C2 on the spec's example: a stored Teknosa price of 120
survives a null merge while a new Hepsiburada price of 150 overwrites. -/
theorem merge_never_nulls_witness :
    ∃ r, lookupRow
        (mergeStore [ResultRow.mk "p" (some 120) (some 120) none none]
          (ResultRow.mk "p" none (some 150) none none))
        (ResultRow.mk "p" none (some 150) none none).name = some r
      ∧ ((ResultRow.mk "p" none (some 150) none none).teknosa = none →
          r.teknosa = (ResultRow.mk "p" (some 120) (some 120) none none).teknosa)
      ∧ (∀ v, (ResultRow.mk "p" none (some 150) none none).teknosa = some v →
          r.teknosa = some v)
      ∧ ((ResultRow.mk "p" none (some 150) none none).hepsiburada = none →
          r.hepsiburada = (ResultRow.mk "p" (some 120) (some 120) none none).hepsiburada)
      ∧ (∀ v, (ResultRow.mk "p" none (some 150) none none).hepsiburada = some v →
          r.hepsiburada = some v)
      ∧ ((ResultRow.mk "p" none (some 150) none none).trendyol = none →
          r.trendyol = (ResultRow.mk "p" (some 120) (some 120) none none).trendyol)
      ∧ (∀ v, (ResultRow.mk "p" none (some 150) none none).trendyol = some v →
          r.trendyol = some v)
      ∧ ((ResultRow.mk "p" none (some 150) none none).amazon = none →
          r.amazon = (ResultRow.mk "p" (some 120) (some 120) none none).amazon)
      ∧ (∀ v, (ResultRow.mk "p" none (some 150) none none).amazon = some v →
          r.amazon = some v) :=
  merge_never_nulls [ResultRow.mk "p" (some 120) (some 120) none none]
    (ResultRow.mk "p" none (some 150) none none)
    (ResultRow.mk "p" (some 120) (some 120) none none)
    (by simp) (by rfl)

/-! ## C7: sponsored candidates with ambiguous URL shape -/

/-- C7 (amended): a sponsored, domain-matching candidate whose URL is
recognised as neither a product page nor a category page is dropped for
Amazon, Trendyol and Teknosa; for Hepsiburada it is dropped exactly when
the lowercased URL has fewer than three hyphens, and otherwise accepted as
looking like a product page. -/
theorem sponsored_ambiguous_policy (link : String) :
    ((amazonDomains.any fun d => csub d (lowerL link.toList)) = true →
      amzProductB (lowerL link.toList) = false →
      amzCategoryB (lowerL link.toList) = false →
      classifyCandidate "amazon" link true = .dropped)
    ∧ (csub "trendyol.com" (lowerL link.toList) = true →
        tyProductB (lowerL link.toList) = false →
        tyCategoryB (lowerL link.toList) = false →
        classifyCandidate "trendyol" link true = .dropped)
    ∧ (csub "teknosa.com" (lowerL link.toList) = true →
        tkProductB (lowerL link.toList) = false →
        tkCategoryB (lowerL link.toList) = false →
        classifyCandidate "teknosa" link true = .dropped)
    ∧ (csub "hepsiburada.com" (lowerL link.toList) = true →
        hbProductB (lowerL link.toList) = false →
        hbCategoryB (lowerL link.toList) = false →
        (classifyCandidate "hepsiburada" link true = .dropped ↔
          (lowerL link.toList).count '-' < 3)) := by
  refine ⟨?_, ?_, ?_, ?_⟩
  · intro h1 h2 h3
    simp only [String.toList] at h1 h2 h3
    simp [classifyCandidate, h1, h2, h3]
  · intro h1 h2 h3
    simp only [String.toList] at h1 h2 h3
    simp [classifyCandidate, h1, h2, h3]
  · intro h1 h2 h3
    simp only [String.toList] at h1 h2 h3
    simp [classifyCandidate, h1, h2, h3]
  · intro h1 h2 h3
    simp only [String.toList] at h1 h2 h3
    by_cases hc : 3 ≤ (lowerL link.data).count '-'
    · simp only [String.toList]
      simp [classifyCandidate, h1, h2, h3, hc]
    · simp only [String.toList]
      simp [classifyCandidate, h1, h2, h3, hc]
      omega

/-- Witness for C7: a sponsored Trendyol link with ambiguous shape is
dropped. -/
theorem sponsored_ambiguous_policy_witness :
    csub "trendyol.com" (lowerL "https://www.trendyol.com/xyz".toList) = true
    ∧ tyProductB (lowerL "https://www.trendyol.com/xyz".toList) = false
    ∧ tyCategoryB (lowerL "https://www.trendyol.com/xyz".toList) = false
    ∧ classifyCandidate "trendyol" "https://www.trendyol.com/xyz" true = .dropped :=
  ⟨by decide, by decide, by decide,
    (sponsored_ambiguous_policy "https://www.trendyol.com/xyz").2.1
      (by decide) (by decide) (by decide)⟩

/-- Counterexample to C7 as frozen: a sponsored Hepsiburada link that is
neither a product-page nor a category-page shape but has three hyphens is
accepted, not dropped. -/
theorem sponsored_ambiguous_cx :
    classifyCandidate "hepsiburada" "https://www.hepsiburada.com/abc-def-ghi-x" true =
      LinkDecision.accepted
    ∧ csub "hepsiburada.com"
        (lowerL "https://www.hepsiburada.com/abc-def-ghi-x".toList) = true
    ∧ hbProductB (lowerL "https://www.hepsiburada.com/abc-def-ghi-x".toList) = false
    ∧ hbCategoryB (lowerL "https://www.hepsiburada.com/abc-def-ghi-x".toList) = false := by
  refine ⟨?_, ?_, ?_, ?_⟩ <;> decide

/-! ## Sequence-matcher lemmas for identical inputs -/

/-- The common prefix of a list with itself is the whole list. -/
theorem cpLen_self (l : List Char) : cpLen l l = l.length := by
  induction l with
  | nil => rfl
  | cons c rest ih => simp [cpLen, ih]

/-- A common prefix is no longer than the first list. -/
theorem cpLen_le_left : ∀ a b : List Char, cpLen a b ≤ a.length := by
  intro a
  induction a with
  | nil => intro b; cases b <;> simp [cpLen]
  | cons c rest ih =>
    intro b
    cases b with
    | nil => simp [cpLen]
    | cons d ds =>
      by_cases hcd : c = d
      · simpa [cpLen, hcd] using ih ds
      · simp [cpLen, hcd]

/-- Once the running best block already has the full length of `a`, no scan
step can improve on it. -/
theorem flm_foldl_const (a b : List Char) (acc : Nat × Nat × Nat)
    (hacc : acc.2.2 = a.length) :
    ∀ ps : List (Nat × Nat), ps.foldl (flmStep a b) acc = acc := by
  intro ps
  induction ps with
  | nil => rfl
  | cons p ps ih =>
    have hk : cpLen (a.drop p.1) (b.drop p.2) ≤ a.length := by
      calc cpLen (a.drop p.1) (b.drop p.2) ≤ (a.drop p.1).length := cpLen_le_left _ _
        _ ≤ a.length := by simp [List.length_drop]
    have hstep : flmStep a b acc p = acc := by
      unfold flmStep
      rw [if_neg]
      omega
    rw [List.foldl_cons, hstep]
    exact ih

/-- The earliest longest matching block of a list against itself is the
whole list at the origin. -/
theorem flm_self (l : List Char) : flm l l = (0, 0, l.length) := by
  cases hl : l with
  | nil => rfl
  | cons c rest =>
    rw [← hl]
    have hlen : l.length = rest.length + 1 := by rw [hl]; rfl
    unfold flm pairList
    rw [hlen, List.range_succ_eq_map, List.flatMap_cons]
    simp only [List.map_cons, List.cons_append, List.foldl_cons]
    have hstep : flmStep l l (0, 0, 0) (0, 0) = (0, 0, l.length) := by
      unfold flmStep
      simp only [List.drop_zero, cpLen_self]
      rw [if_pos]
      omega
    rw [hstep]
    rw [show ((0, 0, rest.length + 1) : Nat × Nat × Nat) = (0, 0, l.length) from by
      rw [hlen]]
    exact flm_foldl_const l l (0, 0, l.length) rfl _

/-- The fuelled block recursion on two empty lists is zero. -/
theorem matchTotF_nil : ∀ fuel, matchTotF fuel [] [] = 0 := by
  intro fuel
  cases fuel with
  | zero => rfl
  | succ fuel => rfl

/-- The total match of a list with itself is its full length. -/
theorem matchTot_self (l : List Char) : matchTot l l = l.length := by
  cases hl : l with
  | nil => rfl
  | cons c rest =>
    rw [← hl]
    have hpos : l.length = rest.length + 1 := by rw [hl]; rfl
    unfold matchTot
    have h2 : l.length + l.length = (l.length + rest.length) + 1 := by omega
    rw [h2]
    unfold matchTotF
    rw [flm_self]
    simp only
    rw [if_neg (by omega)]
    rw [List.take_zero, Nat.zero_add, List.drop_length, matchTotF_nil]
    omega

/-- The `SequenceMatcher` ratio of equal sequences is 1. -/
theorem ratioQ_self (l : List Char) : ratioQ l l = 1 := by
  by_cases hl : l = []
  · rw [hl]; rfl
  · have hlen : l.length ≠ 0 := by simpa using hl
    unfold ratioQ
    rw [if_neg (by omega), matchTot_self]
    have : (l.length : ℚ) ≠ 0 := Nat.cast_ne_zero.mpr hlen
    field_simp
    ring

/-! ## Component lemmas of `calculate_similarity` on identical inputs -/

/-- Filtering a list by membership in itself keeps it unchanged. -/
theorem filter_mem_self (l : List (List Char)) :
    l.filter (fun x => decide (x ∈ l)) = l :=
  List.filter_eq_self.mpr (fun a ha => by simpa using ha)

/-- Filtering a list by non-membership in itself gives the empty list. -/
theorem filter_not_mem_self (l : List (List Char)) :
    l.filter (fun x => decide (x ∉ l)) = [] :=
  List.filter_eq_nil_iff.mpr (fun a ha => by simpa using ha)

/-- Set equality of a word list with itself holds. -/
theorem eqSetB_self (l : List (List Char)) : eqSetB l l = true := by
  unfold eqSetB
  rw [Bool.and_self]
  rw [List.all_eq_true]
  intro a ha
  simpa using ha

/-- The brand sub-score of a text against itself is 1. -/
theorem brandQ_self (t : List Char) : brandQ t t = 1 := by
  unfold brandQ
  rw [if_pos rfl]

/-- The two important-word sets of a text against itself coincide. -/
theorem impPair_self_eq (t : List Char) : (impPair t t).1 = (impPair t t).2 := by
  simp only [impPair]
  split <;> rfl

/-- On a text with at least one word, the important-word set used by the
scorer is nonempty. -/
theorem impPair_self_ne (t : List Char) (h : wordsAll t ≠ []) :
    (impPair t t).1 ≠ [] := by
  simp only [impPair]
  split
  · simpa [List.dedup_eq_nil] using h
  · rename_i hcond
    rw [not_or] at hcond
    simpa using hcond.1

/-- The model tokens shared by a text with itself are all of its tokens. -/
theorem commonModels_self (t : List Char) : commonModels t t = modelsOf t :=
  filter_mem_self (modelsOf t)

/-- No model token of a text is missing from itself. -/
theorem missingModels_self (t : List Char) : missingModels t t = [] :=
  filter_not_mem_self (modelsOf t)

/-- A text without model tokens admits no partial model match with itself. -/
theorem hasPartialModel_self_empty (t : List Char) (h : modelsOf t = []) :
    hasPartialModel t t = false := by
  unfold hasPartialModel modelPairs
  rw [h]
  rfl

/-- The model sub-score of a text against itself: 1 when it has model
tokens, 0 otherwise. -/
theorem modelScoreQ_self (t : List Char) :
    modelScoreQ t t = if modelsOf t = [] then 0 else 1 := by
  unfold modelScoreQ
  rw [commonModels_self, missingModels_self]
  by_cases h : modelsOf t = []
  · rw [if_pos h]
    rw [if_neg (by simp [h]), if_neg (by simp [hasPartialModel_self_empty t h]),
      if_neg (by simp)]
  · rw [if_neg h, if_pos h, if_pos rfl]

/-- The colour sub-score of a text against itself is 1. -/
theorem colorQ_self (t : List Char) : colorQ t t = 1 := by
  simp only [colorQ]
  rw [← impPair_self_eq]
  rw [if_pos (eqSetB_self _)]
  split <;> rfl

/-- The series sub-score of a text against itself is 1. -/
theorem seriesQ_self (t : List Char) : seriesQ t t = 1 := by
  unfold seriesQ
  exact ratioQ_self _

/-- The shared-important-token ratio of a text with at least one word
against itself is 1. -/
theorem impRatioQ_self (t : List Char) (h : wordsAll t ≠ []) :
    impRatioQ t t = 1 := by
  simp only [impRatioQ]
  rw [← impPair_self_eq]
  have hne := impPair_self_ne t h
  rw [if_neg (by simp [hne])]
  rw [filter_mem_self, max_self]
  have hlen : ((impPair t t).1.length : ℚ) ≠ 0 := by
    simpa [List.length_eq_zero] using hne
  field_simp

/-- Whether a text has a model hit against itself reduces to having model
tokens at all. -/
theorem modelHitB_self (t : List Char) :
    modelHitB t t = !(modelsOf t).isEmpty := by
  unfold modelHitB
  rw [commonModels_self]
  by_cases h : modelsOf t = []
  · simp [h, hasPartialModel_self_empty t h]
  · simp [List.isEmpty_eq_false_iff_exists_mem.mpr
      (List.exists_mem_of_ne_nil _ h)]

/-- Self-similarity of a product name with at least one token: exactly 1
when the name contains a model-code token, and exactly 0.6 otherwise. -/
theorem calcSimL_self (t : List Char) (h : wordsAll t ≠ []) :
    calcSimL t t = if modelsOf t = [] then 3 / 5 else 1 := by
  have ht : t ≠ [] := by
    intro he
    rw [he] at h
    exact h rfl
  unfold calcSimL
  rw [if_neg (by simp [ht])]
  simp only [simFlooredQ, simRawQ]
  rw [brandQ_self, modelScoreQ_self, colorQ_self, seriesQ_self, impRatioQ_self t h,
    modelHitB_self]
  by_cases hm : modelsOf t = []
  · rw [if_pos hm, if_pos hm]
    rw [show (modelsOf t).isEmpty = true from by simp [hm]]
    norm_num
  · rw [if_neg hm, if_neg hm]
    rw [show (modelsOf t).isEmpty = false from by
      simp [List.isEmpty_eq_false_iff_exists_mem.mpr (List.exists_mem_of_ne_nil _ hm)]]
    norm_num

/-- An empty first text has no model hit. -/
theorem modelHitB_nil_left (t : List Char) : modelHitB [] t = false := rfl

/-- An empty second text has no model hit. -/
theorem modelHitB_nil_right (t : List Char) : modelHitB t [] = false := by
  have h0 : modelsOf ([] : List Char) = [] := rfl
  unfold modelHitB commonModels hasPartialModel modelPairs
  simp [h0]

/-- With any model hit the floored score is at least 0.5. -/
theorem simFloored_ge_half (t1 t2 : List Char) (h : modelHitB t1 t2 = true) :
    1 / 2 ≤ simFlooredQ t1 t2 := by
  simp only [simFlooredQ]
  rw [h, if_pos rfl, Bool.and_true]
  by_cases hd : decide ((4 : ℚ) / 5 < brandQ t1 t2) = true
  · rw [if_pos hd]
    exact le_trans (le_max_right _ _) (le_max_left _ _)
  · rw [if_neg hd]
    exact le_max_right _ _

/-- With a model hit and a brand score above 0.8 the floored score is at
least 0.7. -/
theorem simFloored_ge_seven (t1 t2 : List Char) (h : modelHitB t1 t2 = true)
    (hb : (4 : ℚ) / 5 < brandQ t1 t2) :
    7 / 10 ≤ simFlooredQ t1 t2 := by
  simp only [simFlooredQ]
  rw [h, if_pos rfl, Bool.and_true, if_pos (decide_eq_true hb)]
  exact le_max_right _ _

/-- A lower bound below 1 on the floored score survives the final clamp. -/
theorem calcSimL_ge (t1 t2 : List Char) (c : ℚ) (hc : c ≤ 1)
    (h1 : t1 ≠ []) (h2 : t2 ≠ []) (h : c ≤ simFlooredQ t1 t2) :
    c ≤ calcSimL t1 t2 := by
  unfold calcSimL
  rw [if_neg (by simp [h1, h2])]
  exact le_trans (le_min hc h) (le_max_right 0 _)

/-- A model hit requires both texts to be nonempty. -/
theorem modelHitB_ne_nil (t1 t2 : List Char) (h : modelHitB t1 t2 = true) :
    t1 ≠ [] ∧ t2 ≠ [] := by
  constructor
  · intro he
    rw [he, modelHitB_nil_left t2] at h
    exact Bool.noConfusion h
  · intro he
    rw [he, modelHitB_nil_right t1] at h
    exact Bool.noConfusion h

/-! ## C5: self-similarity of identical product names -/

/-- C5 (amended): for identical non-blank product names the score is
exactly 1 when the name contains a model-code token, and exactly 0.6 when
it does not (so identical strings do not always score 1.0). -/
theorem calculate_similarity_self (s : String) (h : wordsAll s.toList ≠ []) :
    calculate_similarity s s = if modelsOf s.toList = [] then 3 / 5 else 1 := by
  unfold calculate_similarity
  exact calcSimL_self s.toList h

/-- Witness for C5 on a name with a model code: identical strings with a
model token score exactly 1. -/
theorem calculate_similarity_self_witness :
    wordsAll "Acer AB123 black".toList ≠ []
    ∧ calculate_similarity "Acer AB123 black" "Acer AB123 black" = 1 := by
  refine ⟨by decide, ?_⟩
  rw [calculate_similarity_self "Acer AB123 black" (by decide)]
  rw [if_neg (by decide)]

/-- Counterexample to C5 as frozen: the non-empty name `"acer laptop"`
contains no model-code token, and its self-similarity is 0.6, not 1.0. -/
theorem calculate_similarity_self_cx :
    "acer laptop".toList ≠ []
    ∧ calculate_similarity "acer laptop" "acer laptop" ≠ 1 := by
  refine ⟨by decide, ?_⟩
  have h : calculate_similarity "acer laptop" "acer laptop" = 3 / 5 := by
    show calcSimL "acer laptop".toList "acer laptop".toList = 3 / 5
    rw [calcSimL_self _ (by decide), if_pos (by decide)]
  rw [h]
  norm_num

/-! ## C6: model-match floors of the similarity score -/

/-- C6: any full or partial model-code match floors the similarity score at
0.5, and a brand match (equal first tokens, or fuzzy ratio above 0.8) on top
of a model match floors it at 0.7. -/
theorem model_match_floors (s1 s2 : String)
    (h : modelHitB s1.toList s2.toList = true) :
    1 / 2 ≤ calculate_similarity s1 s2
    ∧ ((4 : ℚ) / 5 < brandQ s1.toList s2.toList →
        7 / 10 ≤ calculate_similarity s1 s2) := by
  obtain ⟨h1, h2⟩ := modelHitB_ne_nil _ _ h
  constructor
  · exact calcSimL_ge _ _ _ (by norm_num) h1 h2 (simFloored_ge_half _ _ h)
  · intro hb
    exact calcSimL_ge _ _ _ (by norm_num) h1 h2 (simFloored_ge_seven _ _ h hb)

/-- Witness for C6: two names sharing the brand `acer` and the model code
`AB123` but different colours have a similarity of at least 0.7. -/
theorem model_match_floors_witness :
    modelHitB "Acer AB123 black".toList "Acer AB123 white".toList = true
    ∧ (4 : ℚ) / 5 < brandQ "Acer AB123 black".toList "Acer AB123 white".toList
    ∧ 1 / 2 ≤ calculate_similarity "Acer AB123 black" "Acer AB123 white"
    ∧ 7 / 10 ≤ calculate_similarity "Acer AB123 black" "Acer AB123 white" := by
  have hm : modelHitB "Acer AB123 black".toList "Acer AB123 white".toList = true := by
    unfold modelHitB
    rw [show (commonModels "Acer AB123 black".toList "Acer AB123 white".toList).isEmpty
        = false from by decide]
    rfl
  have hb : (4 : ℚ) / 5 < brandQ "Acer AB123 black".toList "Acer AB123 white".toList := by
    have : brandQ "Acer AB123 black".toList "Acer AB123 white".toList = 1 := by
      unfold brandQ
      rw [if_pos (by decide)]
    rw [this]
    norm_num
  exact ⟨hm, hb, (model_match_floors _ _ hm).1, (model_match_floors _ _ hm).2 hb⟩
